import Mathlib

/-!
Verification of the MKR5 pump-controller protocol engine.

The definitions below are a shallow embedding of the C++ sources
(`main.cpp`, `main_fixed.cpp`, `types.h`).  Bytes are modelled as `Nat`
values; `uint8_t` truncation is written `% 256` (or `&&& 0xFF`) exactly
where the C++ performs a narrowing conversion, and `uint16_t` / `uint32_t`
overflow is written `% 2^16` / `% 2^32` where it can actually occur.
Byte buffers (`std::vector<uint8_t>`) are `List Nat`.  The serial
transport is external to the embedded core; where a function interacts
with it, the transport's contribution (connection state, write success,
received bytes) is passed in as explicit arguments.
-/

namespace MKR5

/-- One iteration of the inner loop of `calculateCRC16` (main.cpp lines
223-229, identically main_fixed.cpp lines 236-242): if the low bit of the
running 16-bit value is set, shift right one and xor the polynomial
0x8408, otherwise just shift right one.  The value stays below 2^16, so
the `uint16_t` arithmetic never wraps and plain `Nat` operations are
exact (see `calculateCRC16_lt`). -/
def crcRound (c : Nat) : Nat :=
  if c % 2 = 1 then (c / 2) ^^^ 0x8408 else c / 2

/-- The eight iterations of the inner `for (int i = 0; i < 8; i++)` loop. -/
def crcRounds : Nat → Nat → Nat
  | 0, c => c
  | n + 1, c => crcRounds n (crcRound c)

/-- Processing of a single byte by `calculateCRC16`: `crc ^= byte`
followed by eight rounds.  The byte is a `uint8_t`, hence the reduction
modulo 256. -/
def crcStepByte (c b : Nat) : Nat :=
  crcRounds 8 (c ^^^ (b % 256))

/-- Function `calculateCRC16` (main.cpp lines 218-233; byte-identical copy in
main_fixed.cpp lines 231-246): CRC16 over the byte sequence with the
bit-reversed CCITT polynomial 0x8408, initial value 0x0000, LSB-first. -/
def calculateCRC16 (data : List Nat) : Nat :=
  data.foldl crcStepByte 0

/-- Function `createPollPacket` of main_fixed.cpp (lines 369-383): address, control
byte 0x81 (master flag bit 7 set, transaction number 0, control code
POLL = 1), stop flag 0xFA. -/
def createPollPacket (address : Nat) : List Nat :=
  [address, 0x81, 0xFA]

/-- Function `createPollPacket` of the earlier revision main.cpp (lines 312-325):
that revision pushes the bare control byte 0x01 (POLL without the master
flag).  Kept for the record; the consolidated builder is the
main_fixed.cpp one above. -/
def createPollPacketMain (address : Nat) : List Nat :=
  [address, 0x01, 0xFA]

/-- Function `createDataPacket` of main_fixed.cpp (lines 385-428).  The `txNumber`
member is threaded explicitly: the function returns the packet together
with the updated transaction number (the C++ mutates the member at line
425: `txNumber = (txNumber == 0x0F) ? 1 : txNumber + 1`).  The narrowing
`uint8_t` conversions of `dataSize` and `opc` are written `% 256`; the
control byte is at most 0xF4 so its conversion cannot truncate. -/
def createDataPacket (txNumber address command nozzle : Nat) (data : List Nat) :
    List Nat × Nat :=
  let ctrl := 0x80 ||| ((txNumber &&& 0x0F) <<< 4) ||| 0x04
  let dataSize := (1 + data.length) % 256
  let opc := ((command <<< 4) ||| (nozzle &&& 0x0F)) % 256
  let body := [address, ctrl, dataSize, opc] ++ data
  let crc := calculateCRC16 body
  (body ++ [crc &&& 0xFF, (crc >>> 8) &&& 0xFF, 0x03, 0xFA],
   if txNumber = 0x0F then 1 else txNumber + 1)

/-- Function `createDataPacket` of the earlier revision main.cpp (lines 271-310):
that revision hardcodes the control byte 0x14 (DATA, transaction number
fixed at 1, master flag not set) and keeps no transaction state. -/
def createDataPacketMain (address command nozzle : Nat) (data : List Nat) : List Nat :=
  let dataSize := (1 + data.length) % 256
  let opc := ((command <<< 4) ||| (nozzle &&& 0x0F)) % 256
  let body := [address, 0x14, dataSize, opc] ++ data
  let crc := calculateCRC16 body
  body ++ [crc &&& 0xFF, (crc >>> 8) &&& 0xFF, 0x03, 0xFA]

/-- The transaction number in effect when the (n+1)-st data packet of a
session is built.  A fresh MKR5Controller starts with `txNumber = 1`
(main_fixed.cpp line 103) and every `createDataPacket` call replaces it
with the returned second component.  The other arguments of the
intermediate calls are irrelevant to the state update
(`createDataPacket_snd`), so representative ones are used here. -/
def txAfter : Nat → Nat
  | 0 => 1
  | n + 1 => (createDataPacket (txAfter n) 0x50 0 1 []).2

/-- The decoded pump status record (`struct PumpStatus`, main.cpp lines
75-91; identical in main_fixed.cpp lines 76-92). -/
structure PumpStatus where
  address : Nat
  status : Nat
  nozzleOn : Bool
  rfTagSensed : Bool
  errorFlag : Bool
  statusDescription : String
  isValid : Bool
  deriving DecidableEq

/-- The `PumpStatus` default constructor (main.cpp lines 84-90): all
fields zero / false; the string is default-constructed empty. -/
def initStatus : PumpStatus :=
  { address := 0, status := 0, nozzleOn := false, rfTagSensed := false,
    errorFlag := false, statusDescription := "", isValid := false }

/-- Function `getStatusDescription` (main.cpp lines 384-398; identical map in
main_fixed.cpp lines 735-749). -/
def getStatusDescription (status : Nat) : String :=
  if status = 0 then "Простой"
  else if status = 1 then "Готов к заправке"
  else if status = 2 then "Сброшен"
  else if status = 3 then "Авторизован"
  else if status = 4 then "Заправка"
  else if status = 5 then "Приостановлен"
  else if status = 6 then "Сопло отключено"
  else if status = 7 then "Сопло остановлено"
  else if status = 8 then "Не запрограммирован"
  else "Неизвестный статус"

/-- Function `parseStatusResponse` of main.cpp (lines 327-382).  Mirrors the C++
control flow exactly: the early returns hand back the default status (the
address field is filled in from byte 0 once the size and stop-flag checks
have passed, and is kept by every later early return).  Note that the CRC
residue is computed over `response.begin() .. response.end()-3`, i.e. the
last three bytes (crcHigh, ETX, stop flag) are excluded, so the span ends
with the low CRC byte only; `receivedCRC` (lines 362-363) is read from
`response[len-3]` and `response[len-2]` but never used, and is therefore
not modelled as an output. -/
def parseStatusResponse (response : List Nat) : PumpStatus :=
  if response.length < 7 then initStatus
  else if response.getD (response.length - 1) 0 ≠ 0xFA then initStatus
  else if (response.getD 1 0) &&& 0x0F ≠ 0x04 then
    { initStatus with address := response.getD 0 0 }
  else if response.length < 6 + response.getD 2 0 then
    { initStatus with address := response.getD 0 0 }
  else if (response.getD 3 0) >>> 4 ≠ 0 then
    { initStatus with address := response.getD 0 0 }
  else if calculateCRC16 (response.take (response.length - 3)) ≠ 0 then
    { initStatus with address := response.getD 0 0 }
  else if 2 ≤ response.getD 2 0 then
    { address := response.getD 0 0,
      status := (response.getD 4 0) &&& 0x0F,
      nozzleOn := ((response.getD 4 0) &&& 0x10) != 0,
      rfTagSensed := ((response.getD 4 0) &&& 0x20) != 0,
      errorFlag := ((response.getD 4 0) &&& 0x40) != 0,
      statusDescription := getStatusDescription ((response.getD 4 0) &&& 0x0F),
      isValid := true }
  else { initStatus with address := response.getD 0 0 }

/-- The exact condition under which `parseStatusResponse` accepts its
input (sets `isValid`), spelled out: minimum size, trailing stop flag,
DATA control code, size consistent with the length byte, NOZZLE_STATUS
response type, zero CRC residue over `bytes[0 .. len-4]` (the span the
code actually checks, which ends with the low CRC byte), and a payload
of at least two bytes. -/
def statusAccept (r : List Nat) : Prop :=
  7 ≤ r.length ∧
  r.getD (r.length - 1) 0 = 0xFA ∧
  (r.getD 1 0) &&& 0x0F = 0x04 ∧
  6 + r.getD 2 0 ≤ r.length ∧
  (r.getD 3 0) >>> 4 = 0 ∧
  calculateCRC16 (r.take (r.length - 3)) = 0 ∧
  2 ≤ r.getD 2 0

instance (r : List Nat) : Decidable (statusAccept r) := by
  unfold statusAccept
  infer_instance

/-- Function `parseResponse` of main_fixed.cpp (lines 453-653).  Four branch
families, in source order: the heuristic SIZE-OPC-CRC-ETX-STOP structure
(bytes 3 and 4 equal to 0x03, 0xFA — lines 472-555), the echoed poll
pattern FA 50 81 at the start of the buffer (lines 557-569), the
short 3-byte control reply (lines 590-614), and the standard DATA packet
decode (lines 617-648).  Every fall-through path reaches the final
`return status` with `isValid` still false (the address field has been
filled in from byte 0 once the buffer has at least 3 bytes).  Note that
the DATA path performs no CRC verification. -/
def parseResponse (response : List Nat) : PumpStatus :=
  if 5 ≤ response.length ∧ response.getD 3 0 = 0x03 ∧ response.getD 4 0 = 0xFA then
    if ((response.getD 1 0) >>> 4) &&& 0x0F = 0 then
      { initStatus with
        address := 0x50
        status := 0
        statusDescription := "Статус сопла (из OPC)"
        isValid := true }
    else if ((response.getD 1 0) >>> 4) &&& 0x0F = 1 then
      { initStatus with
        address := 0x50
        status := 0
        statusDescription := "Код ошибки"
        errorFlag := true
        isValid := true }
    else
      { initStatus with
        address := 0x50
        status := 0
        statusDescription := "Неизвестный тип ответа: " ++
          toString (((response.getD 1 0) >>> 4) &&& 0x0F)
        isValid := true }
  else if 3 ≤ response.length ∧ response.getD 0 0 = 0xFA ∧
      response.getD 1 0 = 0x50 ∧ response.getD 2 0 = 0x81 then
    { initStatus with
      address := 0x50
      status := 0
      statusDescription := "Устройство отвечает на POLL"
      isValid := true }
  else if 3 ≤ response.length then
    if response.length = 3 then
      { initStatus with
        address := response.getD 0 0
        status := 0
        statusDescription := "Статус неопределен (короткий ответ)"
        isValid := true }
    else if (response.getD 1 0) &&& 0x0F = 0x04 ∧ 7 ≤ response.length then
      if 6 + response.getD 2 0 ≤ response.length then
        if ((response.getD 3 0) >>> 4) &&& 0x0F = 0 ∧ 2 ≤ response.getD 2 0 then
          { address := response.getD 0 0,
            status := (response.getD 4 0) &&& 0x0F,
            nozzleOn := ((response.getD 4 0) &&& 0x10) != 0,
            rfTagSensed := ((response.getD 4 0) &&& 0x20) != 0,
            errorFlag := ((response.getD 4 0) &&& 0x40) != 0,
            statusDescription := getStatusDescription ((response.getD 4 0) &&& 0x0F),
            isValid := true }
        else { initStatus with address := response.getD 0 0 }
      else { initStatus with address := response.getD 0 0 }
    else { initStatus with address := response.getD 0 0 }
  else initStatus

/-- The exact condition under which `parseResponse` sets `isValid`: the
heuristic tail structure, the echoed poll pattern, any 3-byte input, or
a DATA frame with NOZZLE_STATUS response type and payload length at
least 2 (no CRC condition appears: the DATA path never checks it). -/
def responseAccept (r : List Nat) : Prop :=
  (5 ≤ r.length ∧ r.getD 3 0 = 0x03 ∧ r.getD 4 0 = 0xFA) ∨
  (3 ≤ r.length ∧ r.getD 0 0 = 0xFA ∧ r.getD 1 0 = 0x50 ∧ r.getD 2 0 = 0x81) ∨
  r.length = 3 ∨
  (7 ≤ r.length ∧ (r.getD 1 0) &&& 0x0F = 0x04 ∧ 6 + r.getD 2 0 ≤ r.length ∧
    ((r.getD 3 0) >>> 4) &&& 0x0F = 0 ∧ 2 ≤ r.getD 2 0)

instance (r : List Nat) : Decidable (responseAccept r) := by
  unfold responseAccept
  infer_instance

/-- The aligned-pattern counting loop of `receiveData` (main_fixed.cpp
lines 329-337), written with an explicit iteration budget so that it is
structurally recursive: starting from offset `i` (the C++ starts at 0)
and stepping by 3, count consecutive occurrences of FA 50 81; the loop
stops at the first offset that does not match or does not fit (the loop
bound `i <= buffer.size() - 3` is `i + 3 ≤ length` for the buffers of
length at least 3 this runs on, and the body re-checks `i + 2 < length`).
Each iteration needs `i + 3 ≤ length` and advances `i` by 3, so the loop
performs at most `length / 3 + 1 ≤ length` calls for any non-trivial
buffer; the budget `buf.length` used by `patternCountFrom` therefore
never runs out and the fuel recursion computes exactly the C++ loop. -/
def patternCountAux (buf : List Nat) : Nat → Nat → Nat
  | 0, _ => 0
  | fuel + 1, i =>
    if i + 3 ≤ buf.length ∧ i + 2 < buf.length ∧ buf.getD i 0 = 0xFA ∧
        buf.getD (i + 1) 0 = 0x50 ∧ buf.getD (i + 2) 0 = 0x81 then
      1 + patternCountAux buf fuel (i + 3)
    else 0

/-- The pattern count of `receiveData` starting at offset `i`. -/
def patternCountFrom (buf : List Nat) (i : Nat) : Nat :=
  patternCountAux buf buf.length i

/-- The cut-point search of `receiveData` (main_fixed.cpp lines 342-349),
with the same fuel treatment (at most `length - 2 ≤ length` iterations):
the first offset below `length - 2` where FA 50 81 occurs, or 0 when
there is none (`cutPoint` is initialised to 0 in the C++). -/
def findCutAux (buf : List Nat) : Nat → Nat → Nat
  | 0, _ => 0
  | fuel + 1, i =>
    if i < buf.length - 2 then
      if buf.getD i 0 = 0xFA ∧ buf.getD (i + 1) 0 = 0x50 ∧ buf.getD (i + 2) 0 = 0x81 then i
      else findCutAux buf fuel (i + 1)
    else 0

/-- The cut point of `receiveData` starting at offset `i`. -/
def findCut (buf : List Nat) (i : Nat) : Nat :=
  findCutAux buf buf.length i

/-- The truncation performed once the repeating pattern has been detected
(main_fixed.cpp lines 342-357): cut the buffer before the first
occurrence of the pattern, or keep only its first 3 bytes when that
occurrence is at offset 0 (`resize(cutPoint)` / `resize(3)`). -/
def collapseBuffer (buf : List Nat) : List Nat :=
  if 0 < findCut buf 0 then buf.take (findCut buf 0) else buf.take 3

/-- One `receiveData` call of main_fixed.cpp (lines 271-367) restricted to
its byte-driven logic.  The first list holds the bytes the transport
delivers in order; the purely temporal exits (total timeout, silence
timeout, the 20 ms confirmation sleep) are outside the embedding, so the
loop here ends through the byte-driven exits: buffer full (`maxBytes`,
line 279), likely frame end (length at least 8 and last byte 0xFA, lines
317-325), repeating-pattern collapse (lines 328-360, firing at length at
least 9 when at least three aligned FA 50 81 repeats start the buffer:
the buffer is cut at the first occurrence of the pattern, or kept to its
first 3 bytes when that occurrence is at offset 0), or the byte stream
running out (in the C++, the silence timeout). -/
def receiveLoop (maxBytes : Nat) : List Nat → List Nat → List Nat
  | [], buf => buf
  | b :: rest, buf =>
    if maxBytes ≤ buf.length then buf
    else
      let buf2 := buf ++ [b]
      if 8 ≤ buf2.length ∧ buf2.getD (buf2.length - 1) 0 = 0xFA then buf2
      else if 9 ≤ buf2.length ∧ 3 ≤ patternCountFrom buf2 0 then collapseBuffer buf2
      else receiveLoop maxBytes rest buf2

/-- Function `getPumpStatus` of main.cpp (lines 400-439).  The serial transport is
abstracted into oracle arguments: `connected` is the `isConnected` flag,
`sendOk` the result of `sendData` on the request packet, and `response`
the buffer `receiveData` returned.  The C++ returns a default-constructed
PumpStatus when the port is not connected, when the write fails, or when
the response is empty, and otherwise hands the bytes to
`parseStatusResponse`; every path returns a value (nothing throws). -/
def getPumpStatus (connected sendOk : Bool) (response : List Nat) : PumpStatus :=
  if !connected then initStatus
  else if !sendOk then initStatus
  else if response.isEmpty then initStatus
  else parseStatusResponse response

/-- Function `decimalToBcd` (types.h lines 95-108).  Iteration `i` of the loop
writes `result[bytes-1-i]` from the twice-divided running value, so the
list is built by recursion on the byte count with the least significant
digit pair in the last byte.  `value` is only ever divided and the
nibbles are below 10, so none of the `uint8_t`/`uint32_t` arithmetic here
can wrap. -/
def decimalToBcd (value : Nat) (bytes : Nat) : List Nat :=
  match bytes with
  | 0 => []
  | k + 1 =>
    decimalToBcd (value / 10 / 10) k ++ [((value / 10 % 10) <<< 4) ||| (value % 10)]

/-- One iteration of the `bcdToDecimal` loop (types.h lines 84-90) on byte
`b`, acting on the (result, multiplier) accumulator pair.  Both are
`uint32_t`, so every product and sum is reduced modulo 2^32. -/
def bcdStep (b : Nat) (acc : Nat × Nat) : Nat × Nat :=
  let r1 := (acc.1 + ((b &&& 0x0F) * acc.2) % 4294967296) % 4294967296
  let m1 := (acc.2 * 10) % 4294967296
  let r2 := (r1 + (((b >>> 4) &&& 0x0F) * m1) % 4294967296) % 4294967296
  let m2 := (m1 * 10) % 4294967296
  (r2, m2)

/-- Function `bcdToDecimal` (types.h lines 80-93): the loop walks the bytes from
the last to the first, i.e. a right fold of `bcdStep` started from
(result, multiplier) = (0, 1). -/
def bcdToDecimal (bcd : List Nat) : Nat :=
  (bcd.foldr bcdStep (0, 1)).1

theorem xor_lt_65536 {a b : Nat} (ha : a < 65536) (hb : b < 65536) : a ^^^ b < 65536 := by
  have h : (65536 : Nat) = 2 ^ 16 := by norm_num
  rw [h] at ha hb ⊢
  exact Nat.xor_lt_two_pow ha hb

theorem crcRound_lt {c : Nat} (h : c < 65536) : crcRound c < 65536 := by
  unfold crcRound
  split
  · exact xor_lt_65536 (by omega) (by norm_num)
  · omega

theorem crcRounds_lt {c : Nat} (n : Nat) (h : c < 65536) : crcRounds n c < 65536 := by
  induction n generalizing c with
  | zero => exact h
  | succ k ih => exact ih (crcRound_lt h)

theorem crcStepByte_lt {c : Nat} (b : Nat) (h : c < 65536) : crcStepByte c b < 65536 := by
  unfold crcStepByte
  exact crcRounds_lt 8 (xor_lt_65536 h (by omega))

theorem calculateCRC16_lt (data : List Nat) : calculateCRC16 data < 65536 := by
  unfold calculateCRC16
  have h : ∀ (l : List Nat) (c : Nat), c < 65536 → l.foldl crcStepByte c < 65536 := by
    intro l
    induction l with
    | nil => intro c hc; exact hc
    | cons x xs ih => intro c hc; exact ih _ (crcStepByte_lt x hc)
  exact h data 0 (by norm_num)

theorem crcRound_two_mul (m : Nat) : crcRound (2 * m) = m := by
  unfold crcRound
  simp [Nat.mul_mod_right]

theorem crcRounds8_mul256 (k : Nat) : crcRounds 8 (256 * k) = k := by
  show crcRounds 8 (256 * k) = k
  simp only [crcRounds]
  rw [show 256 * k = 2 * (128 * k) by ring, crcRound_two_mul,
      show 128 * k = 2 * (64 * k) by ring, crcRound_two_mul,
      show 64 * k = 2 * (32 * k) by ring, crcRound_two_mul,
      show 32 * k = 2 * (16 * k) by ring, crcRound_two_mul,
      show 16 * k = 2 * (8 * k) by ring, crcRound_two_mul,
      show 8 * k = 2 * (4 * k) by ring, crcRound_two_mul,
      show 4 * k = 2 * (2 * k) by ring, crcRound_two_mul,
      show 2 * k = 2 * (1 * k) by ring, crcRound_two_mul, one_mul]

theorem xor_low_byte (c : Nat) : c ^^^ (c % 256) = 256 * (c / 256) := by
  apply Nat.eq_of_testBit_eq
  intro i
  have hmod : (c % 256).testBit i = (decide (i < 8) && c.testBit i) := by
    have h := Nat.testBit_mod_two_pow c 8 i
    norm_num at h
    exact h
  have hrhs : (256 * (c / 256)).testBit i = (decide (8 ≤ i) && c.testBit i) := by
    have h1 : 256 * (c / 256) = (c >>> 8) <<< 8 := by
      rw [Nat.shiftRight_eq_div_pow, Nat.shiftLeft_eq]
      norm_num [Nat.mul_comm]
    rw [h1, Nat.testBit_shiftLeft]
    by_cases hle : 8 ≤ i
    · have h8 : 8 + (i - 8) = i := by omega
      simp [hle, Nat.testBit_shiftRight, h8]
    · simp [hle]
  rw [Nat.testBit_xor, hmod, hrhs]
  by_cases hi : i < 8
  · simp [hi, Nat.not_le.mpr hi]
  · simp [hi, Nat.le_of_not_lt hi]

theorem crcStepByte_low_byte (c : Nat) : crcStepByte c (c % 256) = c / 256 := by
  unfold crcStepByte
  rw [Nat.mod_mod_of_dvd _ (by norm_num), xor_low_byte, crcRounds8_mul256]

theorem crcStepByte_self {b : Nat} (h : b < 256) : crcStepByte b b = 0 := by
  unfold crcStepByte
  rw [Nat.mod_eq_of_lt h, Nat.xor_self]
  rfl

/-- C5.  CRC round trip: appending the two bytes of `calculateCRC16 s`
(low byte first, exactly the bytes `crc & 0xFF` and `(crc >> 8) & 0xFF`
that `createDataPacket` transmits) to any byte sequence `s` yields a
sequence whose CRC16 residue is 0x0000. -/
theorem crc_roundtrip (s : List Nat) :
    calculateCRC16 (s ++ [calculateCRC16 s &&& 0xFF, (calculateCRC16 s >>> 8) &&& 0xFF]) = 0 := by
  have hlt : calculateCRC16 s < 65536 := calculateCRC16_lt s
  have hmask : ∀ x : Nat, x &&& 0xFF = x % 256 := by
    intro x
    have := Nat.and_pow_two_sub_one_eq_mod x 8
    norm_num at this
    exact this
  have hshift : calculateCRC16 s >>> 8 = calculateCRC16 s / 256 := by
    rw [Nat.shiftRight_eq_div_pow]
  have hdiv_lt : calculateCRC16 s / 256 < 256 := by omega
  have hfold : calculateCRC16 (s ++ [calculateCRC16 s &&& 0xFF, (calculateCRC16 s >>> 8) &&& 0xFF])
      = crcStepByte (crcStepByte (calculateCRC16 s) (calculateCRC16 s &&& 0xFF))
        ((calculateCRC16 s >>> 8) &&& 0xFF) := by
    unfold calculateCRC16
    rw [List.foldl_append]
    rfl
  rw [hfold, hmask, hmask, hshift, crcStepByte_low_byte, Nat.mod_eq_of_lt hdiv_lt,
    crcStepByte_self hdiv_lt]

theorem createDataPacket_snd (txNumber address command nozzle : Nat) (data : List Nat) :
    (createDataPacket txNumber address command nozzle data).2 =
      if txNumber = 0x0F then 1 else txNumber + 1 := rfl

theorem txAfter_eq (n : Nat) : txAfter n = n % 15 + 1 := by
  induction n with
  | zero => rfl
  | succ k ih =>
    show (createDataPacket (txAfter k) 0x50 0 1 []).2 = (k + 1) % 15 + 1
    rw [createDataPacket_snd, ih]
    by_cases h : k % 15 = 14
    · simp only [h]
      norm_num
      omega
    · have h2 : ¬(k % 15 + 1 = 15) := by omega
      simp only [h2, if_false]
      omega

theorem parseStatusResponse_isValid_iff (r : List Nat) :
    (parseStatusResponse r).isValid = true ↔ statusAccept r := by
  unfold parseStatusResponse statusAccept
  split_ifs with h1 h2 h3 h4 h5 h6 h7
  · constructor
    · intro h; simp [initStatus] at h
    · rintro ⟨hc, -⟩; omega
  · constructor
    · intro h; simp [initStatus] at h
    · rintro ⟨-, hc, -⟩; exact absurd hc h2
  · constructor
    · intro h; simp [initStatus] at h
    · rintro ⟨-, -, hc, -⟩; exact absurd hc h3
  · constructor
    · intro h; simp [initStatus] at h
    · rintro ⟨-, -, -, hc, -⟩; omega
  · constructor
    · intro h; simp [initStatus] at h
    · rintro ⟨-, -, -, -, hc, -⟩; exact absurd hc h5
  · constructor
    · intro h; simp [initStatus] at h
    · rintro ⟨-, -, -, -, -, hc, -⟩; exact absurd hc h6
  · constructor
    · intro _
      exact ⟨by omega, not_ne_iff.mp h2, not_ne_iff.mp h3, by omega,
        not_ne_iff.mp h5, not_ne_iff.mp h6, h7⟩
    · intro _; rfl
  · constructor
    · intro h; simp [initStatus] at h
    · rintro ⟨-, -, -, -, -, -, hc⟩; omega

theorem parseResponse_isValid_iff (r : List Nat) :
    (parseResponse r).isValid = true ↔ responseAccept r := by
  unfold parseResponse responseAccept
  split_ifs with hA hA0 hA1 hB h3 hlen3 hD1 hD2 hD3
  · exact ⟨fun _ => Or.inl hA, fun _ => rfl⟩
  · exact ⟨fun _ => Or.inl hA, fun _ => rfl⟩
  · exact ⟨fun _ => Or.inl hA, fun _ => rfl⟩
  · exact ⟨fun _ => Or.inr (Or.inl hB), fun _ => rfl⟩
  · exact ⟨fun _ => Or.inr (Or.inr (Or.inl hlen3)), fun _ => rfl⟩
  · exact ⟨fun _ => Or.inr (Or.inr (Or.inr ⟨hD1.2, hD1.1, hD2, hD3.1, hD3.2⟩)),
      fun _ => rfl⟩
  · constructor
    · intro h; simp [initStatus] at h
    · rintro (hx | hx | hx | hx)
      · exact absurd hx hA
      · exact absurd hx hB
      · exact absurd hx hlen3
      · exact absurd ⟨hx.2.2.2.1, hx.2.2.2.2⟩ hD3
  · constructor
    · intro h; simp [initStatus] at h
    · rintro (hx | hx | hx | hx)
      · exact absurd hx hA
      · exact absurd hx hB
      · exact absurd hx hlen3
      · exact absurd hx.2.2.1 hD2
  · constructor
    · intro h; simp [initStatus] at h
    · rintro (hx | hx | hx | hx)
      · exact absurd hx hA
      · exact absurd hx hB
      · exact absurd hx hlen3
      · exact absurd ⟨hx.2.1, hx.1⟩ hD1
  · constructor
    · intro h; simp [initStatus] at h
    · rintro (hx | hx | hx | hx)
      · exact absurd hx hA
      · exact absurd hx hB
      · omega
      · omega

theorem or_nibbles (hi lo : Nat) (hlo : lo < 16) : (hi <<< 4) ||| lo = 16 * hi + lo := by
  have h1 : ((hi <<< 4) ||| lo) % 16 = lo := by
    have hand := Nat.and_pow_two_sub_one_eq_mod ((hi <<< 4) ||| lo) 4
    norm_num at hand
    rw [← hand, Nat.and_distrib_right]
    have ha : (hi <<< 4) &&& 15 = 0 := by
      have := Nat.and_pow_two_sub_one_eq_mod (hi <<< 4) 4
      norm_num at this
      rw [this, Nat.shiftLeft_eq]
      norm_num
    have hb : lo &&& 15 = lo := by
      have := Nat.and_pow_two_sub_one_eq_mod lo 4
      norm_num at this
      rw [this]
      omega
    rw [ha, hb, Nat.zero_or]
  have h2 : ((hi <<< 4) ||| lo) / 16 = hi := by
    have hdiv : ((hi <<< 4) ||| lo) >>> 4 = hi := by
      apply Nat.eq_of_testBit_eq
      intro i
      rw [Nat.testBit_shiftRight, Nat.testBit_or, Nat.testBit_shiftLeft]
      have hfal : lo.testBit (4 + i) = false := by
        apply Nat.testBit_lt_two_pow
        calc lo < 16 := hlo
          _ = 2 ^ 4 := by norm_num
          _ ≤ 2 ^ (4 + i) := Nat.pow_le_pow_right (by norm_num) (by omega)
      have h4 : 4 + i - 4 = i := by omega
      simp [hfal, h4]
    rw [Nat.shiftRight_eq_div_pow] at hdiv
    norm_num at hdiv
    exact hdiv
  omega

theorem nib_low (hi lo : Nat) (hlo : lo < 16) : ((hi <<< 4) ||| lo) &&& 0x0F = lo := by
  rw [or_nibbles hi lo hlo]
  have := Nat.and_pow_two_sub_one_eq_mod (16 * hi + lo) 4
  norm_num at this
  rw [this]
  omega

theorem nib_high (hi lo : Nat) (hhi : hi < 16) (hlo : lo < 16) :
    (((hi <<< 4) ||| lo) >>> 4) &&& 0x0F = hi := by
  rw [or_nibbles hi lo hlo, Nat.shiftRight_eq_div_pow]
  have hd : (16 * hi + lo) / 2 ^ 4 = hi := by
    norm_num
    omega
  rw [hd]
  have := Nat.and_pow_two_sub_one_eq_mod hi 4
  norm_num at this
  rw [this]
  omega

theorem bcd_fold (k : Nat) : ∀ v r m, r < 4294967296 → m < 4294967296 →
    (decimalToBcd v k).foldr bcdStep (r, m) =
      ((r + v % 10 ^ (2 * k) * m) % 4294967296, m * 10 ^ (2 * k) % 4294967296) := by
  induction k with
  | zero =>
    intro v r m hr hm
    show (r, m) = ((r + v % 10 ^ (2 * 0) * m) % 4294967296, m * 10 ^ (2 * 0) % 4294967296)
    norm_num [Nat.mod_one, Nat.mod_eq_of_lt hr, Nat.mod_eq_of_lt hm]
  | succ k ih =>
    intro v r m hr hm
    have hunf : decimalToBcd v (k + 1) =
        decimalToBcd (v / 10 / 10) k ++ [((v / 10 % 10) <<< 4) ||| (v % 10)] := rfl
    rw [hunf, List.foldr_append]
    have hlo : v % 10 < 16 := by omega
    have hhi : v / 10 % 10 < 16 := by omega
    have hstep : List.foldr bcdStep (r, m) [((v / 10 % 10) <<< 4) ||| (v % 10)] =
        (((r + (v % 10 * m) % 4294967296) % 4294967296 +
           (v / 10 % 10 * (m * 10 % 4294967296)) % 4294967296) % 4294967296,
         (m * 10 % 4294967296 * 10) % 4294967296) := by
      show bcdStep (((v / 10 % 10) <<< 4) ||| (v % 10)) (r, m) = _
      unfold bcdStep
      rw [nib_low _ _ hlo, nib_high _ _ hhi hlo]
    rw [hstep, ih (v / 10 / 10) _ _ (Nat.mod_lt _ (by norm_num)) (Nat.mod_lt _ (by norm_num))]
    have cast_eq : ∀ X Y : Nat,
        (X : ZMod 4294967296) = (Y : ZMod 4294967296) → X % 4294967296 = Y % 4294967296 :=
      fun X Y h => (ZMod.natCast_eq_natCast_iff' X Y _).mp h
    have hsplit : v % 10 ^ (2 * (k + 1)) =
        v % 10 + 10 * (v / 10 % 10) + 100 * (v / 10 / 10 % 10 ^ (2 * k)) := by
      have hp : (10 : Nat) ^ (2 * (k + 1)) = 10 * (10 * 10 ^ (2 * k)) := by
        have : 2 * (k + 1) = 1 + (1 + 2 * k) := by omega
        rw [this, pow_add, pow_add]
        ring
      rw [hp, Nat.mod_mul, Nat.mod_mul, Nat.mul_add, Nat.div_div_eq_div_mul]
      ring_nf
    rw [Prod.mk.injEq]
    constructor
    · apply cast_eq
      rw [hsplit]
      push_cast [ZMod.natCast_mod]
      ring
    · apply cast_eq
      have hp : (10 : Nat) ^ (2 * (k + 1)) = 10 ^ (2 * k) * (10 * 10) := by
        have : 2 * (k + 1) = 2 * k + 2 := by omega
        rw [this, pow_add]
        ring
      rw [hp]
      push_cast [ZMod.natCast_mod]
      ring

/-- Composition of the two BCD conversions of types.h: converting `value`
to `bytes` BCD bytes and back yields `value` modulo 10^(2*bytes). -/
theorem bcd_roundtrip_mod (bytes value : Nat) (hv : value < 4294967296) :
    bcdToDecimal (decimalToBcd value bytes) = value % 10 ^ (2 * bytes) := by
  unfold bcdToDecimal
  rw [bcd_fold bytes value 0 1 (by norm_num) (by norm_num)]
  have h1 : value % 10 ^ (2 * bytes) ≤ value := Nat.mod_le _ _
  simp only [Nat.mul_one, Nat.zero_add]
  omega

set_option maxRecDepth 8192 in
/-- C1.  Evaluation of the status decoder at the frame
50 04 02 01 4E 94 AA 03 FA: `parseStatusResponse` reports it valid even
though the CRC16 residue over the span from the address byte through both
transmitted CRC bytes (the first 7 bytes) is not zero.  The code computes
its residue over `response.begin() .. response.end()-3`, a span that ends
at the low CRC byte and never covers the high CRC byte (here the bogus
0xAA), so a frame whose full-span residue is non-zero is accepted —
contradicting the zero-residue contract that the comment at
main.cpp line 366 itself states. -/
theorem c1_crc_span_bug :
    (parseStatusResponse [0x50, 0x04, 0x02, 0x01, 0x4E, 0x94, 0xAA, 0x03, 0xFA]).isValid
        = true ∧
    calculateCRC16 (List.take 7 [0x50, 0x04, 0x02, 0x01, 0x4E, 0x94, 0xAA, 0x03, 0xFA]) ≠ 0 := by
  constructor
  · decide
  · decide

/-- C4.  For every address the built poll frame is exactly the three
bytes [address, 0x81, 0xFA], and the control byte 0x81 has the master
flag (bit 7) set, transaction number zero (bits 6-4) and control code
POLL = 1 (bits 3-0).  This is the main_fixed.cpp builder; the superseded
main.cpp revision (`createPollPacketMain`) emits control byte 0x01. -/
theorem c4_poll_frame (address : Nat) :
    createPollPacket address = [address, 0x81, 0xFA] ∧
    Nat.testBit 0x81 7 = true ∧
    ((0x81 : Nat) >>> 4) &&& 0x07 = 0 ∧
    (0x81 : Nat) &&& 0x0F = 1 :=
  ⟨rfl, by decide, by decide, by decide⟩

/-- C7 counterexample: the 3-byte short control reply 50 82 FA (an ACK
from address 0x50 — not a DATA frame, not a NOZZLE_STATUS response, and
carrying no CRC at all) is returned by `parseResponse` with
isValid = true, so a successfully-decoded DATA/NOZZLE_STATUS frame with
a verifying CRC is not the only input that sets the flag. -/
theorem c7_short_reply_marked_valid :
    (parseResponse [0x50, 0x82, 0xFA]).isValid = true ∧
    ([0x50, 0x82, 0xFA] : List Nat).length = 3 := by
  constructor
  · decide
  · decide

/-- C7 amended.  A freshly constructed PumpStatus has isValid = false,
and `parseResponse` (main_fixed.cpp) sets isValid on strictly more
inputs than decoded NOZZLE_STATUS DATA frames: exactly on inputs
matching the heuristic tail structure (length at least 5 with bytes 3
and 4 equal to 03 FA), inputs starting with the echoed poll pattern
FA 50 81, every 3-byte reply, and DATA frames with NOZZLE_STATUS
response type and payload length at least 2 — the last accepted without
any CRC verification. -/
theorem c7_validity_characterization :
    initStatus.isValid = false ∧
    ∀ r : List Nat, ((parseResponse r).isValid = true ↔ responseAccept r) :=
  ⟨rfl, parseResponse_isValid_iff⟩

/-- C9.  `getPumpStatus` (main.cpp) returns a result with
isValid = false — it is a total function, so no path can raise —
whenever the port is not connected, the send failed, the transport
returned zero bytes, or the received bytes fail the status-frame
acceptance condition of `parseStatusResponse`. -/
theorem c9_failure_paths (connected sendOk : Bool) (response : List Nat)
    (h : connected = false ∨ sendOk = false ∨ response = [] ∨ ¬ statusAccept response) :
    (getPumpStatus connected sendOk response).isValid = false := by
  unfold getPumpStatus
  rcases h with h | h | h | h
  · simp [h, initStatus]
  · simp [h, initStatus]
  · subst h
    simp [initStatus]
  · have hval : (parseStatusResponse response).isValid = false := by
      rcases hb : (parseStatusResponse response).isValid with _ | _
      · rfl
      · exact absurd ((parseStatusResponse_isValid_iff response).mp hb) h
    simp [apply_ite PumpStatus.isValid, hval, initStatus]

/-- C9 witness: a short ACK-style reply is not a valid status frame, and
`getPumpStatus` run on it (with the transport connected and the write
successful) returns an invalid result. -/
theorem c9_failure_paths_witness :
    (getPumpStatus true true [0x50, 0x82, 0xFA]).isValid = false :=
  c9_failure_paths true true [0x50, 0x82, 0xFA] (Or.inr (Or.inr (Or.inr (by decide))))

/-- C10.  BCD round trip with truncation: for every byte count n and
every uint32 value v, if v < 10^(2n) then converting to n BCD bytes and
back returns v exactly, and if v ≥ 10^(2n) the encoder keeps only the
low 2n decimal digits, so the round trip returns v mod 10^(2n). -/
theorem c10_bcd_roundtrip (n v : Nat) (hv : v < 4294967296) :
    (v < 10 ^ (2 * n) → bcdToDecimal (decimalToBcd v n) = v) ∧
    (10 ^ (2 * n) ≤ v → bcdToDecimal (decimalToBcd v n) = v % 10 ^ (2 * n)) := by
  constructor
  · intro hlt
    rw [bcd_roundtrip_mod n v hv, Nat.mod_eq_of_lt hlt]
  · intro _
    exact bcd_roundtrip_mod n v hv

/-- C10 witness: 1234 survives a 2-byte round trip; 123456 is truncated
by a 2-byte round trip to 123456 mod 10000 = 3456. -/
theorem c10_bcd_roundtrip_witness :
    bcdToDecimal (decimalToBcd 1234 2) = 1234 ∧
    bcdToDecimal (decimalToBcd 123456 2) = 123456 % 10 ^ (2 * 2) :=
  ⟨(c10_bcd_roundtrip 2 1234 (by norm_num)).1 (by norm_num),
   (c10_bcd_roundtrip 2 123456 (by norm_num)).2 (by norm_num)⟩

/-- Closed form of the packet built by `createDataPacket` (main_fixed.cpp):
both sides reduce to the same cons chain. -/
theorem createDataPacket_fst (tx a c nz : Nat) (d : List Nat) :
    (createDataPacket tx a c nz d).1 =
      [a, 0x80 ||| ((tx &&& 0x0F) <<< 4) ||| 0x04, (1 + d.length) % 256,
        ((c <<< 4) ||| (nz &&& 0x0F)) % 256] ++ d ++
      [calculateCRC16 ([a, 0x80 ||| ((tx &&& 0x0F) <<< 4) ||| 0x04, (1 + d.length) % 256,
          ((c <<< 4) ||| (nz &&& 0x0F)) % 256] ++ d) &&& 0xFF,
        (calculateCRC16 ([a, 0x80 ||| ((tx &&& 0x0F) <<< 4) ||| 0x04, (1 + d.length) % 256,
          ((c <<< 4) ||| (nz &&& 0x0F)) % 256] ++ d) >>> 8) &&& 0xFF,
        0x03, 0xFA] := rfl

set_option maxRecDepth 8192 in
/-- C2 counterexample: the frame claimed in C2 asserts a length byte
equal to 1 + len(extraPayload) and an operation byte equal to
(command << 4) | (nozzle & 0xF) without reduction; but with a 255-byte
extra payload the built frame's length byte is (1 + 255) mod 256 = 0,
and with command 0x10 its operation byte is truncated modulo 256 by the
uint8_t conversion, so neither equality holds at this input. -/
theorem c2_length_byte_wraps :
    ((createDataPacket 1 0x50 0x10 1 (List.replicate 255 0)).1.getD 2 0 ≠
      1 + (List.replicate 255 (0 : Nat)).length) ∧
    ((createDataPacket 1 0x50 0x10 1 (List.replicate 255 0)).1.getD 3 0 ≠
      (0x10 <<< 4) ||| (1 &&& 0x0F)) := by
  constructor
  · decide
  · decide

/-- C2 amended.  For every transaction number in [1,15] the built data
frame is exactly [address, 0x80|(tx<<4)|0x04, (1+len(extraPayload)) mod
256, ((command<<4)|(nozzle&0xF)) mod 256, ...extraPayload, crcLow,
crcHigh, 0x03, 0xFA], where the CRC is the CRC16 of the frame's own
first 4+len(extraPayload) bytes (address through the last payload byte)
transmitted low byte first — i.e. the claim with the two uint8_t
reductions made explicit. -/
theorem c2_frame_layout (tx address command nozzle : Nat) (data : List Nat)
    (h1 : 1 ≤ tx) (h2 : tx ≤ 15) :
    (createDataPacket tx address command nozzle data).1 =
      [address, 0x80 ||| (tx <<< 4) ||| 0x04, (1 + data.length) % 256,
        ((command <<< 4) ||| (nozzle &&& 0x0F)) % 256] ++ data ++
      [calculateCRC16 ((createDataPacket tx address command nozzle data).1.take
          (4 + data.length)) &&& 0xFF,
        (calculateCRC16 ((createDataPacket tx address command nozzle data).1.take
          (4 + data.length)) >>> 8) &&& 0xFF,
        0x03, 0xFA] := by
  have hand : tx &&& 0x0F = tx := by
    have h := Nat.and_pow_two_sub_one_eq_mod tx 4
    norm_num at h
    rw [h]
    omega
  have htake : (createDataPacket tx address command nozzle data).1.take (4 + data.length) =
      [address, 0x80 ||| ((tx &&& 0x0F) <<< 4) ||| 0x04, (1 + data.length) % 256,
        ((command <<< 4) ||| (nozzle &&& 0x0F)) % 256] ++ data := by
    rw [createDataPacket_fst]
    apply List.take_left'
    simp
    omega
  rw [htake, createDataPacket_fst, hand]

/-- C2 amended witness at transaction number 1, address 0x50, command
RETURN_STATUS, nozzle 1 and empty extra payload. -/
theorem c2_frame_layout_witness :
    (createDataPacket 1 0x50 0 1 []).1 =
      [0x50, 0x80 ||| (1 <<< 4) ||| 0x04, (1 + ([] : List Nat).length) % 256,
        ((0 <<< 4) ||| (1 &&& 0x0F)) % 256] ++ ([] : List Nat) ++
      [calculateCRC16 ((createDataPacket 1 0x50 0 1 []).1.take
          (4 + ([] : List Nat).length)) &&& 0xFF,
        (calculateCRC16 ((createDataPacket 1 0x50 0 1 []).1.take
          (4 + ([] : List Nat).length)) >>> 8) &&& 0xFF,
        0x03, 0xFA] :=
  c2_frame_layout 1 0x50 0 1 [] (by norm_num) (by norm_num)

/-- C3.  The transaction number starts at 1 and is advanced by every
data-frame build: the number in effect for the (n+1)-st build is
n mod 15 + 1, hence always in [1,15] and never 0; the control byte of
that packet carries exactly this number in bits 6-4; and 16 consecutive
builds stamp 1, 2, ..., 15 and then wrap to 1. -/
theorem c3_tx_sequencing :
    (∀ n : Nat, txAfter n = n % 15 + 1 ∧ 1 ≤ txAfter n ∧ txAfter n ≤ 15) ∧
    (∀ (n address command nozzle : Nat) (data : List Nat),
      (createDataPacket (txAfter n) address command nozzle data).1.getD 1 0 =
        0x80 ||| ((n % 15 + 1) <<< 4) ||| 0x04) ∧
    (List.range 16).map txAfter = [1, 2, 3, 4, 5, 6, 7, 8, 9, 10, 11, 12, 13, 14, 15, 1] := by
  refine ⟨?_, ?_, ?_⟩
  · intro n
    have h := txAfter_eq n
    omega
  · intro n address command nozzle data
    have hget : (createDataPacket (txAfter n) address command nozzle data).1.getD 1 0 =
        0x80 ||| ((txAfter n &&& 0x0F) <<< 4) ||| 0x04 := rfl
    have h := txAfter_eq n
    have hand : (n % 15 + 1) &&& 0x0F = n % 15 + 1 := by
      have ha := Nat.and_pow_two_sub_one_eq_mod (n % 15 + 1) 4
      norm_num at ha
      rw [ha]
      omega
    rw [hget, h, hand]
  · decide

set_option maxRecDepth 8192 in
/-- C6.  In a decoded NOZZLE_STATUS data frame the status byte b (byte 4
of the frame) decodes as statusCode = b mod 16 (bits 0-3), nozzleOn =
bit 4, rfTagSensed = bit 5, errorFlag = bit 6, shown on `parseResponse`
over the frame family 50 14 02 01 b x y 03 FA (any status and CRC
bytes); in particular status byte 0x64 decodes to statusCode 4,
nozzleOn false, rfTagSensed true, errorFlag true. -/
theorem c6_status_bits :
    (∀ b x y : Nat,
      (parseResponse [0x50, 0x14, 0x02, 0x01, b, x, y, 0x03, 0xFA]).status = b % 16 ∧
      (parseResponse [0x50, 0x14, 0x02, 0x01, b, x, y, 0x03, 0xFA]).nozzleOn = b.testBit 4 ∧
      (parseResponse [0x50, 0x14, 0x02, 0x01, b, x, y, 0x03, 0xFA]).rfTagSensed = b.testBit 5 ∧
      (parseResponse [0x50, 0x14, 0x02, 0x01, b, x, y, 0x03, 0xFA]).errorFlag = b.testBit 6 ∧
      (parseResponse [0x50, 0x14, 0x02, 0x01, b, x, y, 0x03, 0xFA]).isValid = true) ∧
    ((parseResponse [0x50, 0x14, 0x02, 0x01, 0x64, 0x00, 0x00, 0x03, 0xFA]).status = 4 ∧
      (parseResponse [0x50, 0x14, 0x02, 0x01, 0x64, 0x00, 0x00, 0x03, 0xFA]).nozzleOn = false ∧
      (parseResponse [0x50, 0x14, 0x02, 0x01, 0x64, 0x00, 0x00, 0x03, 0xFA]).rfTagSensed = true ∧
      (parseResponse [0x50, 0x14, 0x02, 0x01, 0x64, 0x00, 0x00, 0x03, 0xFA]).errorFlag = true) := by
  have key : ∀ b x y : Nat,
      parseResponse [0x50, 0x14, 0x02, 0x01, b, x, y, 0x03, 0xFA] =
        { address := 0x50, status := b &&& 0x0F, nozzleOn := (b &&& 0x10) != 0,
          rfTagSensed := (b &&& 0x20) != 0, errorFlag := (b &&& 0x40) != 0,
          statusDescription := getStatusDescription (b &&& 0x0F), isValid := true } := by
    intro b x y
    have glen : ([0x50, 0x14, 0x02, 0x01, b, x, y, 0x03, 0xFA] : List Nat).length = 9 := rfl
    have g0 : ([0x50, 0x14, 0x02, 0x01, b, x, y, 0x03, 0xFA] : List Nat).getD 0 0 = 0x50 := rfl
    have g1 : ([0x50, 0x14, 0x02, 0x01, b, x, y, 0x03, 0xFA] : List Nat).getD 1 0 = 0x14 := rfl
    have g2 : ([0x50, 0x14, 0x02, 0x01, b, x, y, 0x03, 0xFA] : List Nat).getD 2 0 = 0x02 := rfl
    have g3 : ([0x50, 0x14, 0x02, 0x01, b, x, y, 0x03, 0xFA] : List Nat).getD 3 0 = 0x01 := rfl
    have g4 : ([0x50, 0x14, 0x02, 0x01, b, x, y, 0x03, 0xFA] : List Nat).getD 4 0 = b := rfl
    unfold parseResponse
    rw [glen, g0, g1, g2, g3, g4]
    rw [if_neg (by norm_num), if_neg (by norm_num), if_pos (by norm_num),
      if_neg (by norm_num), if_pos (by decide), if_pos (by norm_num), if_pos (by decide)]
  have hbit : ∀ b i : Nat, (b &&& 2 ^ i != 0) = b.testBit i := by
    intro b i
    rw [Nat.and_two_pow]
    cases h : b.testBit i
    · simp
    · simp [Nat.pos_iff_ne_zero, Nat.pow_eq_zero]
  constructor
  · intro b x y
    rw [key b x y]
    refine ⟨?_, ?_, ?_, ?_, rfl⟩
    · show b &&& 0x0F = b % 16
      have h := Nat.and_pow_two_sub_one_eq_mod b 4
      norm_num at h
      exact h
    · show (b &&& 0x10 != 0) = b.testBit 4
      have h := hbit b 4
      norm_num at h
      exact h
    · show (b &&& 0x20 != 0) = b.testBit 5
      have h := hbit b 5
      norm_num at h
      exact h
    · show (b &&& 0x40 != 0) = b.testBit 6
      have h := hbit b 6
      norm_num at h
      exact h
  · rw [key 0x64 0x00 0x00]
    refine ⟨by decide, by decide, by decide, by decide⟩

set_option maxRecDepth 8192 in
/-- C8.  Noise collapsing in the receive assembler: a receive stream
whose first nine bytes are three consecutive repeats of FA 50 81 is
collapsed to exactly FA 50 81 whatever bytes follow; whenever the repeat
rule fires at all (pattern count at least 3 on a buffer of at least 9
bytes) the counted repeats necessarily start at offset 0 and the buffer
is truncated to its first 3 bytes; in particular the buffer FA 50 81
FA 50 81 FA 50 81 FA 50 81 (the pattern four times from offset 0) is
returned as exactly FA 50 81. -/
theorem c8_noise_collapse :
    (∀ rest : List Nat,
      receiveLoop 128 ([0xFA, 0x50, 0x81, 0xFA, 0x50, 0x81, 0xFA, 0x50, 0x81] ++ rest) [] =
        [0xFA, 0x50, 0x81]) ∧
    (∀ buf : List Nat, 9 ≤ buf.length → 3 ≤ patternCountFrom buf 0 →
      buf.getD 0 0 = 0xFA ∧ buf.getD 1 0 = 0x50 ∧ buf.getD 2 0 = 0x81 ∧
      collapseBuffer buf = buf.take 3) ∧
    receiveLoop 128 [0xFA, 0x50, 0x81, 0xFA, 0x50, 0x81, 0xFA, 0x50, 0x81, 0xFA, 0x50, 0x81] [] =
      [0xFA, 0x50, 0x81] := by
  refine ⟨fun rest => rfl, ?_, rfl⟩
  intro buf h9 h3
  obtain ⟨f, hf⟩ : ∃ f, buf.length = f + 1 := ⟨buf.length - 1, by omega⟩
  have hcount : patternCountFrom buf 0 = patternCountAux buf (f + 1) 0 := by
    rw [patternCountFrom, hf]
  by_cases hC : 0 + 3 ≤ buf.length ∧ 0 + 2 < buf.length ∧ buf.getD 0 0 = 0xFA ∧
      buf.getD (0 + 1) 0 = 0x50 ∧ buf.getD (0 + 2) 0 = 0x81
  · obtain ⟨-, -, hp0, hp1, hp2⟩ := hC
    refine ⟨hp0, hp1, hp2, ?_⟩
    have hfind : findCut buf 0 = 0 := by
      rw [findCut, hf]
      simp only [findCutAux]
      rw [if_pos (by omega), if_pos ⟨hp0, hp1, hp2⟩]
    rw [collapseBuffer, hfind, if_neg (by omega)]
  · exfalso
    have hzero : patternCountAux buf (f + 1) 0 = 0 := by
      simp only [patternCountAux]
      rw [if_neg hC]
    omega

/-- C8 witness: the three-repeat buffer itself satisfies both hypotheses
of the collapse property and is truncated to its first three bytes. -/
theorem c8_noise_collapse_witness :
    collapseBuffer [0xFA, 0x50, 0x81, 0xFA, 0x50, 0x81, 0xFA, 0x50, 0x81] =
      List.take 3 [0xFA, 0x50, 0x81, 0xFA, 0x50, 0x81, 0xFA, 0x50, 0x81] :=
  (c8_noise_collapse.2.1 [0xFA, 0x50, 0x81, 0xFA, 0x50, 0x81, 0xFA, 0x50, 0x81]
    (by decide) (by decide)).2.2.2

end MKR5
